import Mathlib

/-!
Verification development for the AI → Marketo webhook service (`src/index.js`).

The service is embedded shallowly: network calls (the OpenAI chat completion,
the Marketo token exchange, the Marketo lead update) are oracles passed in as
explicit `Except`/response values; JavaScript values flowing through the JSON
layer are modelled by an inductive `Json` type with JS truthiness; machine time
is an `Int` of epoch milliseconds.  Each definition mirrors one function of the
source file.
-/

namespace AiMarketo

/-- A JSON value as produced by `JSON.parse` / consumed by `JSON.stringify`.
Numbers are modelled as integers (every numeric value appearing in the claims
is integral). -/
inductive Json where
  | null
  | bool (b : Bool)
  | num (n : Int)
  | str (s : String)
  | arr (elems : List Json)
  | obj (members : List (String × Json))

/-- JavaScript truthiness of a JSON value (`!!v`): `null`, `false`, `0` and the
empty string are falsy; every array and object is truthy. -/
def jsonTruthy : Json → Bool
  | .null => false
  | .bool b => b
  | .num n => n != 0
  | .str s => s != ""
  | .arr _ => true
  | .obj _ => true

/-- Property lookup `o[k]` on an object: the last binding wins, as in the
object built by `JSON.parse` where later duplicate keys overwrite earlier
ones.  On a non-object the lookup yields no value (`undefined`). -/
def getProp : Json → String → Option Json
  | .obj members, k => (members.filter (fun p => p.1 == k)).getLast?.map (·.2)
  | _, _ => none

/-- Truthiness of `o[k]` where an absent property (`undefined`) is falsy. -/
def propTruthy (j : Json) (k : String) : Bool :=
  match getProp j k with
  | none => false
  | some v => jsonTruthy v

/-- `o[k]` with `undefined` collapsed to `null` (used only where the source
has already checked the property is present). -/
def propOrNull (j : Json) (k : String) : Json :=
  (getProp j k).getD Json.null

/-- JavaScript `v.length` for the values that can reach the
`data.errors.length` check: arrays and strings have a numeric length,
everything else has none (`undefined`). -/
def jsLength : Json → Option Json
  | .arr xs => some (.num xs.length)
  | .str s => some (.num s.length)
  | _ => none

-- ------------------------------------------------------------------
-- Marketo token cache (`getMarketoAccessToken`, src/index.js:36-61)
-- ------------------------------------------------------------------

/-- The module-level cache slots `marketoToken` / `marketoTokenExpiresAt`.
`marketoToken` starts as `null` (`none`); `marketoTokenExpiresAt` starts at 0. -/
structure TokenCacheState where
  marketoToken : Option String
  marketoTokenExpiresAt : Int
deriving DecidableEq

/-- Body of a successful token-exchange response: `{ access_token, expires_in }`. -/
structure TokenExchangeData where
  access_token : String
  expires_in : Int
deriving DecidableEq

/-- JS truthiness of the `marketoToken` slot: `null` and `""` are falsy. -/
def tokenTruthy : Option String → Bool
  | none => false
  | some t => t != ""

/-- Outcome of one `getMarketoAccessToken()` call: the returned token or the
thrown error, the cache state after the call, and how many token exchanges
(fetches of the identity endpoint) the call performed. -/
structure TokenCallOutcome where
  result : Except String String
  state : TokenCacheState
  exchanges : Nat

/-- `getMarketoAccessToken` (src/index.js:36-61).  `now` is `Date.now()`
captured at the start of the call; `exchange` is the outcome of the
client-credentials fetch, consulted only when the cached token is unusable:
`.error` for a non-ok HTTP status, `.ok data` for a parsed success body. -/
def getMarketoAccessToken (st : TokenCacheState) (now : Int)
    (exchange : Except Unit TokenExchangeData) : TokenCallOutcome :=
  if tokenTruthy st.marketoToken && decide (now < st.marketoTokenExpiresAt) then
    { result := .ok (st.marketoToken.getD ""), state := st, exchanges := 0 }
  else
    match exchange with
    | .error _ =>
        { result := .error "Failed to get Marketo access token", state := st, exchanges := 1 }
    | .ok data =>
        { result := .ok data.access_token,
          state := { marketoToken := some data.access_token,
                     marketoTokenExpiresAt := now + (data.expires_in - 300) * 1000 },
          exchanges := 1 }

-- ------------------------------------------------------------------
-- Marketo lead update (`updateMarketoLead`, src/index.js:63-95)
-- ------------------------------------------------------------------

/-- Distinguishable failures of one `updateMarketoLead` call: the token
acquisition threw, `res.json()` threw (body not JSON), or the update itself
was rejected (`throw new Error('Failed to update Marketo lead')`). -/
inductive LeadUpdateError where
  | authFailed
  | bodyNotJson
  | updateFailed
deriving DecidableEq

/-- The lead-update HTTP exchange as the code observes it: the `res.ok`
status flag and the outcome of `res.json()` (`.error` when the body is not
parseable JSON, in which case `res.json()` throws). -/
structure LeadUpdateResponse where
  ok : Bool
  body : Except Unit Json

/-- The truthy cascade `data && data.errors && data.errors.length` guarding
the failure branch of `updateMarketoLead`. -/
def dataHasErrors (data : Json) : Bool :=
  jsonTruthy data &&
    (match getProp data "errors" with
     | none => false
     | some e =>
        jsonTruthy e &&
          (match jsLength e with
           | none => false
           | some len => jsonTruthy len))

/-- `updateMarketoLead` (src/index.js:63-95).  `tokenResult` is the outcome of
`getMarketoAccessToken()`; `resp` the lead-update HTTP exchange.  The body is
parsed (`res.json()`) before success is decided; the call fails when the HTTP
status is non-ok or when the parsed body carries a non-empty `errors` list,
and otherwise returns the parsed body.  `marketoLeadId` and `fields` shape the
request body and do not influence which branch is taken. -/
def updateMarketoLead (tokenResult : Except String String)
    (marketoLeadId : Json) (fields : List (String × Json))
    (resp : LeadUpdateResponse) : Except LeadUpdateError Json :=
  match tokenResult with
  | .error _ => .error .authFailed
  | .ok _ =>
    match resp.body with
    | .error _ => .error .bodyNotJson
    | .ok data =>
      if !resp.ok || dataHasErrors data then .error .updateFailed
      else .ok data

-- ------------------------------------------------------------------
-- Defensive extraction (`generateEmailWithAI`, src/index.js:208-237)
-- ------------------------------------------------------------------

/-- The backtick character (0x60). -/
def backtick : Char := Char.ofNat 96

/-- The three-backtick fence marker. -/
def fenceChars : List Char := [backtick, backtick, backtick]

/-- The `\x7b` character. -/
def openBrace : Char := '\x7b'

/-- The `\x7d` character. -/
def closeBrace : Char := '\x7d'

/-- Whitespace as matched by `\s` / trimmed by `String.prototype.trim` on the
ASCII range: space, tab, line feed, carriage return, form feed, vertical tab. -/
def isJsSpace (c : Char) : Bool :=
  c == ' ' || c == '\t' || c == '\n' || c == '\r' || c == '\x0c' || c == '\x0b'

/-- ASCII letter, as matched by the regex class `[a-zA-Z]`. -/
def isAsciiLetter (c : Char) : Bool :=
  (('a' ≤ c) && (c ≤ 'z')) || (('A' ≤ c) && (c ≤ 'Z'))

/-- `String.prototype.trim`: drop leading and trailing whitespace. -/
def jsTrim (s : List Char) : List Char :=
  ((s.dropWhile isJsSpace).reverse.dropWhile isJsSpace).reverse

/-- `content.replace(/^...[a-zA-Z]*\s*/, '')` where `...` is the triple
backtick: if the (untrimmed) content starts with the fence, drop it, then the
maximal ASCII-letter run (the language tag), then the maximal whitespace run;
otherwise the regex does not match and the content is unchanged. -/
def stripOpenFence (content : List Char) : List Char :=
  if content.take 3 = fenceChars then
    ((content.drop 3).dropWhile isAsciiLetter).dropWhile isJsSpace
  else content

/-- `content.replace(/...$/, '')` where `...` is the triple backtick: drop a
trailing fence if the content ends with one (`$` anchors at the very end of
the string), otherwise leave the content unchanged. -/
def stripCloseFence (content : List Char) : List Char :=
  if fenceChars.isSuffixOf content then content.take (content.length - 3)
  else content

/-- Cleanup step 1 (src/index.js:210-215): when the trimmed content starts
with a code fence, strip the opening fence line, strip a trailing fence, and
trim. -/
def cleanupContent (content : List Char) : List Char :=
  if (jsTrim content).take 3 = fenceChars then
    jsTrim (stripCloseFence (stripOpenFence content))
  else content

/-- `String.prototype.indexOf` for a single character: index of the first
occurrence, or none (the source's `-1`). -/
def firstIdx (c : Char) : List Char → Option Nat
  | [] => none
  | x :: xs => if x = c then some 0 else (firstIdx c xs).map (· + 1)

/-- `String.prototype.lastIndexOf` for a single character: index of the last
occurrence, or none (the source's `-1`). -/
def lastIdx (c : Char) : List Char → Option Nat
  | [] => none
  | x :: xs =>
    match lastIdx c xs with
    | some i => some (i + 1)
    | none => if x = c then some 0 else none

/-- Failures of `generateEmailWithAI` (src/index.js:158-245), one per
`throw` site. -/
inductive GenError where
  | unknownBaseDataId
  | openaiCallFailed
  | noJsonObject
  | jsonParseFailed
  | missingFields
deriving DecidableEq

/-- Cleanup step 2 (src/index.js:217-226): locate the first `\x7b` and the
last `\x7d` of the cleaned content; fail when either is absent or the last
comes at or before the first; otherwise slice from the first to the last
inclusive (`content.slice(firstCurly, lastCurly + 1)`). -/
def extractJsonSlice (content : List Char) : Except GenError (List Char) :=
  let c := cleanupContent content
  match firstIdx openBrace c, lastIdx closeBrace c with
  | some firstCurly, some lastCurly =>
    if lastCurly ≤ firstCurly then .error .noJsonObject
    else .ok ((c.drop firstCurly).take (lastCurly + 1 - firstCurly))
  | _, _ => .error .noJsonObject

-- ------------------------------------------------------------------
-- `JSON.parse` (platform builtin used at src/index.js:230 and 87)
-- ------------------------------------------------------------------

/-- Whitespace accepted between JSON tokens (RFC 8259). -/
def isJsonWs (c : Char) : Bool :=
  c == ' ' || c == '\t' || c == '\n' || c == '\r'

/-- Skip inter-token whitespace. -/
def skipJsonWs (s : List Char) : List Char := s.dropWhile isJsonWs

/-- Decode a single-character JSON string escape (`\uXXXX` is not modelled;
no input in this development uses it). -/
def decodeEscape (c : Char) : Option Char :=
  if c = '"' then some '"'
  else if c = '\\' then some '\\'
  else if c = '/' then some '/'
  else if c = 'b' then some '\x08'
  else if c = 'f' then some '\x0c'
  else if c = 'n' then some '\n'
  else if c = 'r' then some '\r'
  else if c = 't' then some '\t'
  else none

/-- Parse the body of a JSON string literal, positioned just after the
opening quote; yields the decoded characters and the rest after the closing
quote. -/
def parseStringBody : Nat → List Char → Option (List Char × List Char)
  | 0, _ => none
  | _ + 1, [] => none
  | fuel + 1, c :: rest =>
    if c = '"' then some ([], rest)
    else if c = '\\' then
      match rest with
      | [] => none
      | e :: rest2 =>
        match decodeEscape e with
        | none => none
        | some d => (parseStringBody fuel rest2).map (fun p => (d :: p.1, p.2))
    else (parseStringBody fuel rest).map (fun p => (c :: p.1, p.2))

/-- Numeric value of a maximal run of decimal digits. -/
def digitsToNat (ds : List Char) : Nat :=
  ds.foldl (fun a c => a * 10 + (c.toNat - 48)) 0

/-- Parse one or more decimal digits. -/
def parseDigits (s : List Char) : Option (Nat × List Char) :=
  let ds := s.takeWhile Char.isDigit
  if ds = [] then none else some (digitsToNat ds, s.dropWhile Char.isDigit)

/-- Parse a JSON number (integer grammar: optional minus then digits;
fractions and exponents are not modelled, no input in this development uses
them). -/
def parseJsonNumber (s : List Char) : Option (Int × List Char) :=
  match s with
  | '-' :: rest => (parseDigits rest).map (fun p => (-(p.1 : Int), p.2))
  | _ => (parseDigits s).map (fun p => ((p.1 : Int), p.2))

mutual

/-- Parse one JSON value and return the remaining input. -/
def parseJsonValue : Nat → List Char → Option (Json × List Char)
  | 0, _ => none
  | fuel + 1, input =>
    match skipJsonWs input with
    | [] => none
    | c :: rest =>
      if c = '"' then
        (parseStringBody (rest.length + 1) rest).map
          (fun p => (Json.str (String.mk p.1), p.2))
      else if c = openBrace then
        match skipJsonWs rest with
        | d :: r1 =>
          if d = closeBrace then some (Json.obj [], r1)
          else
            (parseJsonMembers fuel (skipJsonWs rest)).map
              (fun p => (Json.obj p.1, p.2))
        | [] => none
      else if c = '[' then
        match skipJsonWs rest with
        | ']' :: r1 => some (Json.arr [], r1)
        | _ => (parseJsonItems fuel (skipJsonWs rest)).map
            (fun p => (Json.arr p.1, p.2))
      else if (c :: rest).take 4 = "true".data then some (Json.bool true, (c :: rest).drop 4)
      else if (c :: rest).take 5 = "false".data then some (Json.bool false, (c :: rest).drop 5)
      else if (c :: rest).take 4 = "null".data then some (Json.null, (c :: rest).drop 4)
      else (parseJsonNumber (c :: rest)).map (fun p => (Json.num p.1, p.2))

/-- Parse the members of a JSON object, positioned at the (quoted) first key
of the remaining member list; consumes through the closing brace. -/
def parseJsonMembers : Nat → List Char → Option (List (String × Json) × List Char)
  | 0, _ => none
  | fuel + 1, input =>
    match input with
    | '"' :: rest =>
      match parseStringBody (rest.length + 1) rest with
      | none => none
      | some (key, r1) =>
        match skipJsonWs r1 with
        | ':' :: r2 =>
          match parseJsonValue fuel r2 with
          | none => none
          | some (v, r3) =>
            match skipJsonWs r3 with
            | ',' :: r4 =>
              (parseJsonMembers fuel (skipJsonWs r4)).map
                (fun p => ((String.mk key, v) :: p.1, p.2))
            | d :: r4 =>
              if d = closeBrace then some ([(String.mk key, v)], r4) else none
            | [] => none
        | _ => none
    | _ => none

/-- Parse the elements of a JSON array, positioned at the first element of
the remaining element list; consumes through the closing bracket. -/
def parseJsonItems : Nat → List Char → Option (List Json × List Char)
  | 0, _ => none
  | fuel + 1, input =>
    match parseJsonValue fuel input with
    | none => none
    | some (v, r1) =>
      match skipJsonWs r1 with
      | ',' :: r2 => (parseJsonItems fuel r2).map (fun p => (v :: p.1, p.2))
      | ']' :: r2 => some ([v], r2)
      | _ => none

end

/-- `JSON.parse`: parse a complete JSON text (one value, possibly surrounded
by whitespace); `none` is a thrown `SyntaxError`.  The fuel bounds nesting
depth, which never exceeds the text length. -/
def jsonParse (text : List Char) : Option Json :=
  match parseJsonValue (text.length + 1) text with
  | some (v, rest) => if skipJsonWs rest = [] then some v else none
  | none => none

-- ------------------------------------------------------------------
-- Base data and prompt builders (src/index.js:21-32, 99-155)
-- ------------------------------------------------------------------

/-- One record of the `BASE_DATA` catalog. -/
structure BaseContent where
  productName : String
  coreBenefits : List String
  primaryCTA : String
  ctaUrl : String

/-- The `BASE_DATA` lookup table (src/index.js:21-32): a single key. -/
def BASE_DATA : String → Option BaseContent
  | "VC_BASE_V1" => some
      { productName := "Voice Cloud",
        coreBenefits :=
          ["Altijd bereikbaar, ook als je niet op kantoor bent",
           "Eenvoudige bediening via app en web",
           "Schaalbaar per medewerker, groei mee met je zaak"],
        primaryCTA := "Plan een gratis demo",
        ctaUrl := "https://www2.telenet.be/business/nl/voice-cloud/demo" }
  | _ => none

/-- JavaScript `x || d` on a possibly-undefined string (`undefined` and `""`
are falsy). -/
def jsOrOpt (x : Option String) (d : String) : String :=
  match x with
  | none => d
  | some s => if s = "" then d else s

/-- JavaScript `x || d` on a string. -/
def jsOrStr (x d : String) : String :=
  if x = "" then d else x

/-- The Dutch system prompt (the `language === 'nl'` branch of
`buildSystemPrompt`, src/index.js:100-108). -/
def dutchSystemPrompt : String :=
  "\nJe bent een e-mailcopywriter voor Telenet Business."
    ++ "\nJe schrijft in het Nederlands, professioneel maar vlot, duidelijk en kort."
    ++ "\nGebruik maximaal 120 tekens voor de subject line en 120 tekens voor de preheader."
    ++ "\nGebruik eenvoudige HTML met inline styles, zonder <style> of <script>."
    ++ "\nGebruik \x7b\x7blead.First Name\x7d\x7d als placeholder voor de voornaam."
    ++ "\nDe e-mail is bedoeld om leads te overtuigen een volgende stap te zetten."
    ++ "\nOutput ALTIJD exact in geldig JSON-formaat (één object), zonder extra tekst."

/-- The English system prompt (the fallback branch of `buildSystemPrompt`,
src/index.js:111-117). -/
def englishSystemPrompt : String :=
  "\nYou are an email copywriter for Telenet Business."
    ++ "\nWrite in clear, concise, professional language."
    ++ "\nMax 120 characters for subject and 120 for preheader."
    ++ "\nUse simple HTML with inline styles only, no <style> or <script>."
    ++ "\nUse \x7b\x7blead.First Name\x7d\x7d as the placeholder for the first name."
    ++ "\nOutput MUST be a single valid JSON object, nothing else."

/-- `buildSystemPrompt` (src/index.js:99-118): the Dutch instruction set for
the language code `"nl"`, the English equivalent for any other code. -/
def buildSystemPrompt (language : String := "nl") : String :=
  if language = "nl" then dutchSystemPrompt else englishSystemPrompt

/-- The 1-based enumerated benefit list:
`base.coreBenefits.map((b, i) => ...).join('\n')` (src/index.js:131). -/
def enumerateBenefits (benefits : List String) : String :=
  String.intercalate "\n"
    (benefits.enum.map (fun p => "  " ++ toString (p.1 + 1) ++ ". " ++ p.2))

/-- `buildUserPrompt` (src/index.js:120-155): the template literal with each
interpolation substituted; absent or empty lead attributes read "onbekend",
an empty language reads "nl". -/
def buildUserPrompt (sector employeeCount jobTitle : Option String)
    (language : String) (base : BaseContent) : String :=
  "\nSchrijf een commerciële e-mail voor een lead met deze kenmerken:"
    ++ "\n- Sector: " ++ jsOrOpt sector "onbekend"
    ++ "\n- Aantal werknemers: " ++ jsOrOpt employeeCount "onbekend"
    ++ "\n- Jobtitel: " ++ jsOrOpt jobTitle "onbekend"
    ++ "\n- Taal: " ++ jsOrStr language "nl"
    ++ "\n\nDe e-mail gaat over het product \"" ++ base.productName ++ "\"."
    ++ "\n\nBelangrijkste voordelen die in de e-mail moeten terugkomen (vertaal en herschrijf in jouw eigen woorden):"
    ++ "\n" ++ enumerateBenefits base.coreBenefits
    ++ "\n\nCall-to-action:"
    ++ "\n- Tekst: " ++ base.primaryCTA
    ++ "\n- Url: " ++ base.ctaUrl
    ++ "\n\nStructuur van de e-mail:"
    ++ "\n- Aanspreking met \x7b\x7blead.First Name\x7d\x7d"
    ++ "\n- 1 korte intro die inspeelt op sector en jobtitel"
    ++ "\n- 2 à 3 korte alinea\x27s met voordelen"
    ++ "\n- 1 duidelijke call-to-action button met link naar " ++ base.ctaUrl
    ++ "\n- Eventueel 1 korte afsluiter"
    ++ "\n\nBELANGRIJK:"
    ++ "\nGeef de output als één JSON-object met deze structuur:"
    ++ "\n\n\x7b"
    ++ "\n  \"subject\": \"…\","
    ++ "\n  \"preheader\": \"…\","
    ++ "\n  \"htmlBody\": \"<!DOCTYPE html>…</html>\""
    ++ "\n\x7d"
    ++ "\n\nZorg dat htmlBody volledige, geldige HTML bevat (met <html>, <body>, …)."
    ++ "\nGeen extra tekst rond de JSON, geen uitleg. Enkel het JSON-object."

-- ------------------------------------------------------------------
-- Email generation (`generateEmailWithAI`, src/index.js:158-245)
-- ------------------------------------------------------------------

/-- Extraction followed by parsing (src/index.js:208-237): fence strip and
brace slice, then `JSON.parse` on the slice.  The parse function is a
parameter so that theorems can show it is not consulted when extraction
fails; the service instantiates it with `jsonParse`. -/
def extractAndParse (parse : List Char → Option Json) (content : List Char) :
    Except GenError Json :=
  match extractJsonSlice content with
  | .error e => .error e
  | .ok jsonSlice =>
    match parse jsonSlice with
    | none => .error .jsonParseFailed
    | some parsed => .ok parsed

/-- Field validation (src/index.js:239-244): `subject`, `preheader` and
`htmlBody` must all be present and truthy. -/
def validateEmailFields (parsed : Json) : Except GenError Json :=
  if !propTruthy parsed "subject" || !propTruthy parsed "preheader"
      || !propTruthy parsed "htmlBody" then
    .error .missingFields
  else .ok parsed

/-- The two chat messages sent to the completion endpoint. -/
structure OpenAiRequest where
  systemPrompt : String
  userPrompt : String

/-- `generateEmailWithAI` (src/index.js:158-245).  `openaiResult` is the
completion call's outcome: `.error` for a non-ok HTTP status, `.ok content`
for the first choice's message text.  Returns the generated email or the
thrown error, together with the request actually sent to the model (`none`
when the base-data lookup failed before any call was made). -/
def generateEmailWithAI (sector employeeCount jobTitle : Option String)
    (language : String) (baseDataId : String)
    (openaiResult : Except Unit String) :
    Except GenError Json × Option OpenAiRequest :=
  match BASE_DATA baseDataId with
  | none => (.error .unknownBaseDataId, none)
  | some base =>
    let req : OpenAiRequest :=
      { systemPrompt := buildSystemPrompt language,
        userPrompt := buildUserPrompt sector employeeCount jobTitle language base }
    match openaiResult with
    | .error _ => (.error .openaiCallFailed, some req)
    | .ok content =>
      match extractAndParse jsonParse content.data with
      | .error e => (.error e, some req)
      | .ok parsed => (validateEmailFields parsed, some req)

-- ------------------------------------------------------------------
-- Webhook handler (`POST /webhooks/ai-email`, src/index.js:254-303)
-- ------------------------------------------------------------------

/-- The request body after `express.json()`: each property is absent
(`undefined`, triggering the destructuring default where one exists) or
present with a value. -/
structure WebhookRequestBody where
  email : Option Json
  marketoLeadId : Option Json
  sector : Option String
  employeeCount : Option String
  jobTitle : Option String
  language : Option String
  baseDataId : Option String

/-- Truthiness of a possibly-absent value (`!marketoLeadId`). -/
def optTruthy : Option Json → Bool
  | none => false
  | some v => jsonTruthy v

/-- `fieldsToUpdate` (src/index.js:283-289). -/
def fieldsToUpdate (aiEmail : Json) (language : String) : List (String × Json) :=
  [("AI_Email_Subject__c", propOrNull aiEmail "subject"),
   ("AI_Email_Preheader__c", propOrNull aiEmail "preheader"),
   ("AI_Email_Body_HTML__c", propOrNull aiEmail "htmlBody"),
   ("AI_Email_Language__c", Json.str language),
   ("AI_Email_Ready__c", Json.bool true)]

/-- An error surfaced by the handler's catch block. -/
inductive AppError where
  | gen (e : GenError)
  | update (e : LeadUpdateError)
deriving DecidableEq

/-- The handler's four possible responses: 401, 400 (missing lead id),
500 (any thrown error), and the success envelope
`{ success, message, aiEmail, marketo }`. -/
inductive HandlerResponse where
  | unauthorized
  | missingLeadId
  | serverError (e : AppError)
  | success (aiEmail : Json) (marketo : Json)

/-- One handler invocation: the response sent, the OpenAI request made (if
any), and whether/with which fields the Marketo updater was called. -/
structure HandlerRun where
  response : HandlerResponse
  openaiRequest : Option OpenAiRequest
  marketoCalled : Bool
  marketoFields : Option (List (String × Json))

/-- The `POST /webhooks/ai-email` handler (src/index.js:254-303).
`authorized` is the negation of the header-secret mismatch; the three
remaining oracles are the upstream exchanges, consulted only when control
reaches them. -/
def handleAiEmailWebhook (authorized : Bool) (body : WebhookRequestBody)
    (openaiResult : Except Unit String)
    (tokenResult : Except String String) (updateResp : LeadUpdateResponse) :
    HandlerRun :=
  if !authorized then
    { response := .unauthorized, openaiRequest := none,
      marketoCalled := false, marketoFields := none }
  else
    let language := body.language.getD "nl"
    let baseDataId := body.baseDataId.getD "VC_BASE_V1"
    if !optTruthy body.marketoLeadId then
      { response := .missingLeadId, openaiRequest := none,
        marketoCalled := false, marketoFields := none }
    else
      match generateEmailWithAI body.sector body.employeeCount body.jobTitle
          language baseDataId openaiResult with
      | (.error e, req) =>
        { response := .serverError (.gen e), openaiRequest := req,
          marketoCalled := false, marketoFields := none }
      | (.ok aiEmail, req) =>
        let fields := fieldsToUpdate aiEmail language
        match updateMarketoLead tokenResult
            (body.marketoLeadId.getD Json.null) fields updateResp with
        | .error e =>
          { response := .serverError (.update e), openaiRequest := req,
            marketoCalled := true, marketoFields := some fields }
        | .ok mkto =>
          { response := .success aiEmail mkto, openaiRequest := req,
            marketoCalled := true, marketoFields := some fields }

-- ------------------------------------------------------------------
-- Theorems
-- ------------------------------------------------------------------

/-- Claim C2: a `getAccessToken` call finding a cached token value strictly
before its expiry returns that value with no token exchange; a call finding
no usable cached value or a reached expiry performs exactly one exchange and,
on success, stores the returned token and new expiry; consequently a call
that performs no exchange happens strictly before the cached expiry, so a
token with zero or negative remaining lifetime is never returned without
first attempting a refresh. -/
theorem getMarketoAccessToken_cache_policy
    (st : TokenCacheState) (now : Int) (exchange : Except Unit TokenExchangeData) :
    (∀ t, st.marketoToken = some t → t ≠ "" → now < st.marketoTokenExpiresAt →
      getMarketoAccessToken st now exchange =
        { result := .ok t, state := st, exchanges := 0 }) ∧
    ((tokenTruthy st.marketoToken = false ∨ st.marketoTokenExpiresAt ≤ now) →
      (getMarketoAccessToken st now exchange).exchanges = 1 ∧
      ∀ d, exchange = .ok d →
        getMarketoAccessToken st now exchange =
          { result := .ok d.access_token,
            state := { marketoToken := some d.access_token,
                       marketoTokenExpiresAt := now + (d.expires_in - 300) * 1000 },
            exchanges := 1 }) ∧
    ((getMarketoAccessToken st now exchange).exchanges = 0 →
      now < st.marketoTokenExpiresAt) := by
  refine ⟨?_, ?_, ?_⟩
  · intro t ht hne hlt
    have hcond : (tokenTruthy st.marketoToken
        && decide (now < st.marketoTokenExpiresAt)) = true := by
      simp [tokenTruthy, ht, hne, hlt]
    simp only [getMarketoAccessToken]
    rw [hcond]
    simp [ht]
  · intro h
    have hcond : (tokenTruthy st.marketoToken
        && decide (now < st.marketoTokenExpiresAt)) = false := by
      rcases h with h | h
      · simp [h]
      · simp [not_lt.mpr h]
    constructor
    · cases exchange with
      | error u => simp [getMarketoAccessToken, hcond]
      | ok d => simp [getMarketoAccessToken, hcond]
    · intro d hd
      subst hd
      simp [getMarketoAccessToken, hcond]
  · intro h
    by_contra hge
    push_neg at hge
    have hcond : (tokenTruthy st.marketoToken
        && decide (now < st.marketoTokenExpiresAt)) = false := by
      simp [not_lt.mpr hge]
    cases exchange with
    | error u => simp [getMarketoAccessToken, hcond] at h
    | ok d => simp [getMarketoAccessToken, hcond] at h

/-- Witness for C2: with the token `"tok"` cached until epoch-millisecond
1000, a call at 500 returns `"tok"` from the cache with zero exchanges. -/
theorem getMarketoAccessToken_cache_policy_witness :
    getMarketoAccessToken ⟨some "tok", 1000⟩ 500 (.error ()) =
      { result := .ok "tok", state := ⟨some "tok", 1000⟩, exchanges := 0 } :=
  (getMarketoAccessToken_cache_policy ⟨some "tok", 1000⟩ 500 (.error ())).1
    "tok" rfl (by decide) (by decide)

/-- Claim C6: after a successful token exchange the cached expiry equals the
call's start time plus `(expires_in - 300) * 1000` milliseconds, which never
exceeds (indeed is strictly below) the raw upstream window
`now + expires_in * 1000`. -/
theorem getMarketoAccessToken_expiry_margin
    (st : TokenCacheState) (now : Int) (d : TokenExchangeData)
    (hmiss : (tokenTruthy st.marketoToken
      && decide (now < st.marketoTokenExpiresAt)) = false) :
    (getMarketoAccessToken st now (.ok d)).state.marketoTokenExpiresAt =
      now + (d.expires_in - 300) * 1000 ∧
    (getMarketoAccessToken st now (.ok d)).state.marketoTokenExpiresAt <
      now + d.expires_in * 1000 := by
  have hstate : (getMarketoAccessToken st now (.ok d)).state.marketoTokenExpiresAt =
      now + (d.expires_in - 300) * 1000 := by
    simp [getMarketoAccessToken, hmiss]
  refine ⟨hstate, ?_⟩
  rw [hstate]
  linarith

/-- Witness for C6: an exchange at time 0 returning `expires_in = 3600`
caches expiry `3300000 = (3600 - 300) * 1000`, below the raw `3600000`. -/
theorem getMarketoAccessToken_expiry_margin_witness :
    (getMarketoAccessToken ⟨none, 0⟩ 0 (.ok ⟨"t2", 3600⟩)).state.marketoTokenExpiresAt =
      0 + (3600 - 300) * 1000 ∧
    (getMarketoAccessToken ⟨none, 0⟩ 0 (.ok ⟨"t2", 3600⟩)).state.marketoTokenExpiresAt <
      0 + 3600 * 1000 :=
  getMarketoAccessToken_expiry_margin ⟨none, 0⟩ 0 ⟨"t2", 3600⟩ (by decide)

/-- Claim C9: when the cache is consulted past expiry (or empty) and the
token-exchange HTTP call fails, the call throws and both cache slots keep
exactly their previous values — the stale token is not cleared — and any
later call (at the same or a later time) again performs an exchange. -/
theorem getMarketoAccessToken_failed_refresh_preserves_cache
    (st : TokenCacheState) (now : Int)
    (hmiss : (tokenTruthy st.marketoToken
      && decide (now < st.marketoTokenExpiresAt)) = false) :
    getMarketoAccessToken st now (.error ()) =
      { result := .error "Failed to get Marketo access token",
        state := st, exchanges := 1 } ∧
    ∀ now' : Int, now ≤ now' → ∀ exchange : Except Unit TokenExchangeData,
      (getMarketoAccessToken st now' exchange).exchanges = 1 := by
  constructor
  · simp [getMarketoAccessToken, hmiss]
  · intro now' hle exchange
    have hmiss' : (tokenTruthy st.marketoToken
        && decide (now' < st.marketoTokenExpiresAt)) = false := by
      rcases Bool.and_eq_false_iff.mp hmiss with h | h
      · simp [h]
      · have : ¬ now < st.marketoTokenExpiresAt := by
          simpa using h
        have : ¬ now' < st.marketoTokenExpiresAt := by omega
        simp [this]
    cases exchange with
    | error u => simp [getMarketoAccessToken, hmiss']
    | ok d => simp [getMarketoAccessToken, hmiss']

/-- Witness for C9: a failed refresh at time 5 on an expired cache
(`expiresAt = 3`) leaves the slots `("old", 3)` untouched, and the follow-up
call at time 7 exchanges again. -/
theorem getMarketoAccessToken_failed_refresh_preserves_cache_witness :
    getMarketoAccessToken ⟨some "old", 3⟩ 5 (.error ()) =
      { result := .error "Failed to get Marketo access token",
        state := ⟨some "old", 3⟩, exchanges := 1 } ∧
    (getMarketoAccessToken ⟨some "old", 3⟩ 7 (.error ())).exchanges = 1 := by
  have h := getMarketoAccessToken_failed_refresh_preserves_cache
    ⟨some "old", 3⟩ 5 (by decide)
  exact ⟨h.1, h.2 7 (by decide) (.error ())⟩

/-- A property lookup only succeeds on an object, and every object is
truthy. -/
theorem jsonTruthy_of_getProp_some (j : Json) (k : String) (v : Json)
    (h : getProp j k = some v) : jsonTruthy j = true := by
  cases j <;> simp [getProp, jsonTruthy] at h ⊢

/-- Under the upstream shape assumption that an `errors` property, when
present, is an array, the `data && data.errors && data.errors.length` guard
holds exactly when the body carries a non-empty `errors` array. -/
theorem dataHasErrors_iff (data : Json)
    (herr : ∀ e, getProp data "errors" = some e → ∃ l, e = Json.arr l) :
    dataHasErrors data = true ↔
      ∃ l, getProp data "errors" = some (Json.arr l) ∧ l ≠ [] := by
  unfold dataHasErrors
  cases hget : getProp data "errors" with
  | none => simp [hget]
  | some e =>
    obtain ⟨l, rfl⟩ := herr e hget
    have htr := jsonTruthy_of_getProp_some data "errors" (Json.arr l) hget
    rw [htr]
    simp only [Bool.true_and, jsonTruthy, jsLength]
    constructor
    · intro h
      refine ⟨l, rfl, ?_⟩
      intro hnil
      subst hnil
      simp at h
    · rintro ⟨l', hl', hne⟩
      obtain rfl : l = l' := by
        simpa using hl'
      have hlen : l.length ≠ 0 := fun h0 => hne (List.length_eq_zero.mp h0)
      simpa using hlen

/-- Claim C3: given a token, `updateLead` fails with the update error exactly
when the HTTP status is non-success or the JSON-parsed body carries a
non-empty `errors` array (in particular an HTTP 200 whose body has a
non-empty `errors` array is a failure); otherwise it returns the parsed
body; and an unparseable body fails at the parse step regardless of the
status, because the body is always parsed before success is decided. -/
theorem updateMarketoLead_failure_iff
    (tok : String) (leadId : Json) (fields : List (String × Json))
    (resp : LeadUpdateResponse) (data : Json)
    (hbody : resp.body = .ok data)
    (herr : ∀ e, getProp data "errors" = some e → ∃ l, e = Json.arr l) :
    (updateMarketoLead (.ok tok) leadId fields resp = .error .updateFailed ↔
      (resp.ok = false ∨ ∃ l, getProp data "errors" = some (Json.arr l) ∧ l ≠ [])) ∧
    (updateMarketoLead (.ok tok) leadId fields resp ≠ .error .updateFailed →
      updateMarketoLead (.ok tok) leadId fields resp = .ok data) ∧
    (∀ (ok : Bool) (u : Unit) (fields' : List (String × Json)),
      updateMarketoLead (.ok tok) leadId fields' ⟨ok, .error u⟩ = .error .bodyNotJson) := by
  obtain ⟨ok, body⟩ := resp
  simp only at hbody
  subst hbody
  refine ⟨?_, ?_, ?_⟩
  · cases ok with
    | false => simp [updateMarketoLead]
    | true =>
      cases hdhe : dataHasErrors data with
      | false =>
        simp only [updateMarketoLead, Bool.not_true, hdhe, Bool.or_self]
        constructor
        · intro h
          simp at h
        · rintro (h | h)
          · exact absurd h (by simp)
          · exact absurd ((dataHasErrors_iff data herr).mpr h) (by simp [hdhe])
      | true =>
        simp only [updateMarketoLead, Bool.not_true, hdhe, Bool.false_or, if_true]
        exact ⟨fun _ => Or.inr ((dataHasErrors_iff data herr).mp hdhe), fun _ => trivial⟩
  · intro h
    simp only [updateMarketoLead] at h ⊢
    by_cases hc : (!ok || dataHasErrors data) = true
    · rw [if_pos hc] at h
      exact absurd rfl h
    · rw [if_neg hc] at h ⊢
  · intro ok' u fields'
    simp [updateMarketoLead]

/-- Witness for C3: an HTTP 200 (`ok = true`) body
`{"errors":[{"code":611}]}` makes the update fail with the update error. -/
theorem updateMarketoLead_failure_iff_witness :
    updateMarketoLead (.ok "tok") (Json.str "42") []
      ⟨true, .ok (Json.obj [("errors", Json.arr [Json.obj [("code", Json.num 611)]])])⟩
      = .error .updateFailed :=
  (updateMarketoLead_failure_iff "tok" (Json.str "42") []
      ⟨true, .ok (Json.obj [("errors", Json.arr [Json.obj [("code", Json.num 611)]])])⟩
      (Json.obj [("errors", Json.arr [Json.obj [("code", Json.num 611)]])])
      rfl
      (fun e he => ⟨[Json.obj [("code", Json.num 611)]], by
        simp [getProp] at he
        exact he.symm⟩)).1.mpr
    (Or.inr ⟨[Json.obj [("code", Json.num 611)]], rfl, by simp⟩)

/-- An absent property and an empty-string property are both falsy. -/
theorem propTruthy_false_of (j : Json) (k : String)
    (h : getProp j k = none ∨ getProp j k = some (Json.str "")) :
    propTruthy j k = false := by
  rcases h with h | h <;> simp [propTruthy, h, jsonTruthy]

/-- Claim C5: once the model output has been extracted and parsed, generation
returns the parsed object exactly when `subject`, `preheader` and `htmlBody`
are all present and truthy; if any of the three is absent or the empty
string, generation fails with the missing-fields error even though the JSON
parsed successfully. -/
theorem generateEmail_field_validation
    (sector employeeCount jobTitle : Option String)
    (language baseDataId : String) (base : BaseContent) (content : String)
    (parsed : Json)
    (hbase : BASE_DATA baseDataId = some base)
    (hparse : extractAndParse jsonParse content.data = .ok parsed) :
    ((generateEmailWithAI sector employeeCount jobTitle language baseDataId
        (.ok content)).1 = .ok parsed ↔
      propTruthy parsed "subject" = true ∧ propTruthy parsed "preheader" = true ∧
        propTruthy parsed "htmlBody" = true) ∧
    ((getProp parsed "subject" = none ∨ getProp parsed "subject" = some (Json.str "") ∨
      getProp parsed "preheader" = none ∨ getProp parsed "preheader" = some (Json.str "") ∨
      getProp parsed "htmlBody" = none ∨ getProp parsed "htmlBody" = some (Json.str "")) →
      (generateEmailWithAI sector employeeCount jobTitle language baseDataId
        (.ok content)).1 = .error .missingFields) := by
  have hgen : (generateEmailWithAI sector employeeCount jobTitle language baseDataId
      (.ok content)).1 = validateEmailFields parsed := by
    simp [generateEmailWithAI, hbase, hparse]
  rw [hgen]
  constructor
  · cases hs : propTruthy parsed "subject" <;>
      cases hp : propTruthy parsed "preheader" <;>
        cases hb : propTruthy parsed "htmlBody" <;>
          simp [validateEmailFields, hs, hp, hb]
  · intro h
    have hfalse : propTruthy parsed "subject" = false ∨
        propTruthy parsed "preheader" = false ∨
        propTruthy parsed "htmlBody" = false := by
      rcases h with h | h | h | h | h | h
      · exact Or.inl (propTruthy_false_of _ _ (Or.inl h))
      · exact Or.inl (propTruthy_false_of _ _ (Or.inr h))
      · exact Or.inr (Or.inl (propTruthy_false_of _ _ (Or.inl h)))
      · exact Or.inr (Or.inl (propTruthy_false_of _ _ (Or.inr h)))
      · exact Or.inr (Or.inr (propTruthy_false_of _ _ (Or.inl h)))
      · exact Or.inr (Or.inr (propTruthy_false_of _ _ (Or.inr h)))
    rcases hfalse with h' | h' | h' <;> simp [validateEmailFields, h']

/-- Witness for C5: a model output parsing to `{"subject":"S"}` (no
`preheader`, no `htmlBody`) makes generation fail with the missing-fields
error. -/
theorem generateEmail_field_validation_witness :
    (generateEmailWithAI none none none "nl" "VC_BASE_V1"
      (.ok "\x7b\"subject\":\"S\"\x7d")).1 = .error .missingFields :=
  (generateEmail_field_validation none none none "nl" "VC_BASE_V1"
      { productName := "Voice Cloud",
        coreBenefits :=
          ["Altijd bereikbaar, ook als je niet op kantoor bent",
           "Eenvoudige bediening via app en web",
           "Schaalbaar per medewerker, groei mee met je zaak"],
        primaryCTA := "Plan een gratis demo",
        ctaUrl := "https://www2.telenet.be/business/nl/voice-cloud/demo" }
      "\x7b\"subject\":\"S\"\x7d" (Json.obj [("subject", Json.str "S")])
      rfl rfl).2
    (Or.inr (Or.inr (Or.inl rfl)))

/-- `indexOf` misses exactly the absent characters. -/
theorem firstIdx_eq_none_iff (c : Char) (l : List Char) :
    firstIdx c l = none ↔ c ∉ l := by
  induction l with
  | nil => simp [firstIdx]
  | cons x xs ih =>
    by_cases hx : x = c
    · subst hx
      simp [firstIdx]
    · simp [firstIdx, hx, Option.map_eq_none', ih, Ne.symm hx]

/-- `lastIndexOf` misses exactly the absent characters. -/
theorem lastIdx_eq_none_iff (c : Char) (l : List Char) :
    lastIdx c l = none ↔ c ∉ l := by
  induction l with
  | nil => simp [lastIdx]
  | cons x xs ih =>
    simp only [lastIdx]
    cases h : lastIdx c xs with
    | some i =>
      have hmem : c ∈ xs := by
        by_contra hco
        rw [ih.mpr hco] at h
        cases h
      simp [hmem]
    | none =>
      have hnmem : c ∉ xs := ih.mp h
      by_cases hx : x = c
      · subst hx
        simp
      · simp [hx, hnmem, Ne.symm hx]

/-- Unfolding equation for `firstIdx` on a cons cell. -/
theorem firstIdx_cons (c x : Char) (xs : List Char) :
    firstIdx c (x :: xs)
      = if x = c then some 0 else (firstIdx c xs).map (· + 1) := rfl

/-- Unfolding equation for `lastIdx` on a cons cell. -/
theorem lastIdx_cons (c x : Char) (xs : List Char) :
    lastIdx c (x :: xs)
      = match lastIdx c xs with
        | some i => some (i + 1)
        | none => if x = c then some 0 else none := rfl

/-- `firstIdx c (c :: l) = 0`. -/
theorem firstIdx_cons_self (c : Char) (l : List Char) :
    firstIdx c (c :: l) = some 0 := by
  simp [firstIdx_cons]

/-- A prefix free of `c` shifts the first index by its length. -/
theorem firstIdx_append_of_not_mem (c : Char) (p l : List Char) (hp : c ∉ p) :
    firstIdx c (p ++ l) = (firstIdx c l).map (· + p.length) := by
  induction p with
  | nil =>
    cases h : firstIdx c l <;> simp [h]
  | cons x xs ih =>
    have hx : x ≠ c := fun hxc => hp (by simp [hxc])
    have hxs : c ∉ xs := fun hc => hp (by simp [hc])
    rw [List.cons_append, firstIdx_cons, if_neg hx, ih hxs]
    cases h : firstIdx c l with
    | none => simp [h]
    | some i =>
      simp only [h, Option.map_some', Option.some.injEq, List.length_cons]
      omega

/-- A suffix free of `c` does not move the last index. -/
theorem lastIdx_append_of_not_mem (c : Char) (l q : List Char) (hq : c ∉ q) :
    lastIdx c (l ++ q) = lastIdx c l := by
  induction l with
  | nil =>
    have hnone : lastIdx c q = none := (lastIdx_eq_none_iff c q).mpr hq
    show lastIdx c q = lastIdx c []
    rw [hnone]
    rfl
  | cons x xs ih =>
    rw [List.cons_append, lastIdx_cons, ih, ← lastIdx_cons]

/-- The last index of a list ending in `c` is its last position. -/
theorem lastIdx_concat_self (c : Char) (l : List Char) :
    lastIdx c (l ++ [c]) = some l.length := by
  induction l with
  | nil => simp [lastIdx]
  | cons x xs ih =>
    rw [List.cons_append, lastIdx_cons, ih]
    rfl

/-- A block delimited by braces is already trimmed. -/
theorem jsTrim_brace_block (mid : List Char) :
    jsTrim (openBrace :: (mid ++ [closeBrace])) = openBrace :: (mid ++ [closeBrace]) := by
  have h1 : isJsSpace openBrace = false := by decide
  have h2 : isJsSpace closeBrace = false := by decide
  unfold jsTrim
  rw [List.dropWhile_cons]
  simp only [h1, Bool.false_eq_true, if_false]
  have hrev : (openBrace :: (mid ++ [closeBrace])).reverse
      = closeBrace :: (mid.reverse ++ [openBrace]) := by
    simp
  rw [hrev, List.dropWhile_cons]
  simp only [h2, Bool.false_eq_true, if_false]
  rw [← hrev, List.reverse_reverse]

/-- A block delimited by braces does not start with a fence, so cleanup
leaves it unchanged. -/
theorem cleanupContent_brace_block (mid : List Char) :
    cleanupContent (openBrace :: (mid ++ [closeBrace]))
      = openBrace :: (mid ++ [closeBrace]) := by
  unfold cleanupContent
  rw [jsTrim_brace_block]
  have hneq : (openBrace :: (mid ++ [closeBrace])).take 3 ≠ fenceChars := by
    intro h
    have hhead : openBrace = backtick := by
      have := congrArg List.head? h
      simpa [List.take_succ_cons, fenceChars] using this
    exact absurd hhead (by decide)
  rw [if_neg hneq]

/-- Unfolding equation for `extractJsonSlice` with the intermediate `let`
expanded. -/
theorem extractJsonSlice_eq (content : List Char) :
    extractJsonSlice content =
      match firstIdx openBrace (cleanupContent content),
          lastIdx closeBrace (cleanupContent content) with
      | some firstCurly, some lastCurly =>
        if lastCurly ≤ firstCurly then .error .noJsonObject
        else .ok (((cleanupContent content).drop firstCurly).take
            (lastCurly + 1 - firstCurly))
      | _, _ => .error .noJsonObject := rfl

/-- `extractJsonSlice` when both braces are found. -/
theorem extractJsonSlice_some_some (content : List Char) (f l : Nat)
    (hf : firstIdx openBrace (cleanupContent content) = some f)
    (hl : lastIdx closeBrace (cleanupContent content) = some l) :
    extractJsonSlice content =
      if l ≤ f then .error .noJsonObject
      else .ok (((cleanupContent content).drop f).take (l + 1 - f)) := by
  rw [extractJsonSlice_eq, hf, hl]

/-- Extraction of a standalone brace-delimited block returns the block. -/
theorem extractJsonSlice_brace_block (mid : List Char) :
    extractJsonSlice (openBrace :: (mid ++ [closeBrace]))
      = .ok (openBrace :: (mid ++ [closeBrace])) := by
  have hf : firstIdx openBrace (openBrace :: (mid ++ [closeBrace])) = some 0 :=
    firstIdx_cons_self openBrace (mid ++ [closeBrace])
  have hl : lastIdx closeBrace (openBrace :: (mid ++ [closeBrace]))
      = some (mid.length + 1) := by
    have h := lastIdx_concat_self closeBrace (openBrace :: mid)
    simpa using h
  rw [extractJsonSlice_some_some _ 0 (mid.length + 1)
      (by rw [cleanupContent_brace_block]; exact hf)
      (by rw [cleanupContent_brace_block]; exact hl),
    cleanupContent_brace_block]
  rw [if_neg (by omega)]
  simp only [List.drop_zero]
  have hlen : (openBrace :: (mid ++ [closeBrace])).length = mid.length + 1 + 1 - 0 := by
    simp
  rw [← hlen, List.take_length]

/-- Claim C1: when the cleaned model text decomposes as wrapper prose
containing no opening brace, then a brace-delimited block, then wrapper prose
containing no closing brace, extraction returns exactly the block — the
wrapper text is discarded, not an error — and extracting the block alone
gives the same result, so both parse to the same object. -/
theorem extraction_tolerates_wrapper (content p mid q : List Char)
    (hdecomp : cleanupContent content = p ++ ((openBrace :: (mid ++ [closeBrace])) ++ q))
    (hp : openBrace ∉ p) (hq : closeBrace ∉ q) :
    extractJsonSlice content = .ok (openBrace :: (mid ++ [closeBrace])) ∧
    extractJsonSlice (openBrace :: (mid ++ [closeBrace]))
      = .ok (openBrace :: (mid ++ [closeBrace])) ∧
    ∀ parse : List Char → Option Json,
      extractAndParse parse content
        = extractAndParse parse (openBrace :: (mid ++ [closeBrace])) := by
  have hf : firstIdx openBrace (p ++ ((openBrace :: (mid ++ [closeBrace])) ++ q))
      = some p.length := by
    rw [firstIdx_append_of_not_mem openBrace p _ hp, List.cons_append,
      firstIdx_cons_self]
    simp
  have hlin : lastIdx closeBrace ((p ++ (openBrace :: mid)) ++ [closeBrace])
      = some (p.length + (mid.length + 1)) := by
    have hlen2 : (p ++ (openBrace :: mid)).length = p.length + (mid.length + 1) := by
      simp only [List.length_append, List.length_cons]
    rw [lastIdx_concat_self, hlen2]
  have hl : lastIdx closeBrace (p ++ ((openBrace :: (mid ++ [closeBrace])) ++ q))
      = some (p.length + (mid.length + 1)) := by
    rw [← List.append_assoc, lastIdx_append_of_not_mem closeBrace _ q hq]
    calc lastIdx closeBrace (p ++ (openBrace :: (mid ++ [closeBrace])))
        = lastIdx closeBrace ((p ++ (openBrace :: mid)) ++ [closeBrace]) := by
          simp
      _ = some (p.length + (mid.length + 1)) := hlin
  have hmain : extractJsonSlice content = .ok (openBrace :: (mid ++ [closeBrace])) := by
    rw [extractJsonSlice_some_some _ p.length (p.length + (mid.length + 1))
        (by rw [hdecomp]; exact hf) (by rw [hdecomp]; exact hl), hdecomp]
    rw [if_neg (by omega)]
    have hdrop : (p ++ ((openBrace :: (mid ++ [closeBrace])) ++ q)).drop p.length
        = (openBrace :: (mid ++ [closeBrace])) ++ q := List.drop_left p _
    rw [hdrop]
    have harith : p.length + (mid.length + 1) + 1 - p.length = mid.length + 2 := by
      omega
    rw [harith]
    have htake : ((openBrace :: (mid ++ [closeBrace])) ++ q).take (mid.length + 2)
        = openBrace :: (mid ++ [closeBrace]) := by
      apply List.take_left'
      simp
    rw [htake]
  refine ⟨hmain, extractJsonSlice_brace_block mid, ?_⟩
  intro parse
  simp [extractAndParse, hmain, extractJsonSlice_brace_block mid]

/-- Witness for C1: the fenced, prose-wrapped text
(triple backtick)json newline `\x7b"a":1\x7d` newline (triple backtick)` bedankt!`
extracts to exactly the brace block, as does the clean block alone. -/
theorem extraction_tolerates_wrapper_witness :
    extractJsonSlice ("```json\n\x7b\"a\":1\x7d\n``` bedankt!".data)
      = .ok (openBrace :: ("\"a\":1".data ++ [closeBrace])) ∧
    extractJsonSlice (openBrace :: ("\"a\":1".data ++ [closeBrace]))
      = .ok (openBrace :: ("\"a\":1".data ++ [closeBrace])) :=
  have h := extraction_tolerates_wrapper ("```json\n\x7b\"a\":1\x7d\n``` bedankt!".data)
    [] ("\"a\":1".data) ("\n``` bedankt!".data) (by decide) (by decide) (by decide)
  ⟨h.1, h.2.1⟩

/-- Claim C4: when the cleaned model text has no opening brace, no closing
brace, or its last closing brace at or before its first opening brace,
extraction fails with precisely the no-JSON-object error, whatever the parse
function — the JSON-parse step is never reached. -/
theorem extraction_malformed (content : List Char)
    (h : openBrace ∉ cleanupContent content ∨
         closeBrace ∉ cleanupContent content ∨
         ∃ f l, firstIdx openBrace (cleanupContent content) = some f ∧
                lastIdx closeBrace (cleanupContent content) = some l ∧ l ≤ f) :
    extractJsonSlice content = .error .noJsonObject ∧
    ∀ parse : List Char → Option Json,
      extractAndParse parse content = .error .noJsonObject := by
  have hslice : extractJsonSlice content = .error .noJsonObject := by
    rcases h with h | h | ⟨f, l, hf, hl, hle⟩
    · rw [extractJsonSlice_eq,
        (firstIdx_eq_none_iff openBrace (cleanupContent content)).mpr h]
    · rw [extractJsonSlice_eq,
        (lastIdx_eq_none_iff closeBrace (cleanupContent content)).mpr h]
      cases hf' : firstIdx openBrace (cleanupContent content) <;> rfl
    · rw [extractJsonSlice_some_some content f l hf hl, if_pos hle]
  exact ⟨hslice, fun parse => by simp [extractAndParse, hslice]⟩

/-- Witness for C4: the model text `geen json hier, sorry!` (no braces at
all) makes extraction fail with the no-JSON-object error, and generation
report exactly that error. -/
theorem extraction_malformed_witness :
    extractJsonSlice ("geen json hier!".data) = .error .noJsonObject ∧
    extractAndParse jsonParse ("geen json hier!".data) = .error .noJsonObject :=
  have h := extraction_malformed ("geen json hier!".data) (Or.inl (by decide))
  ⟨h.1, h.2 jsonParse⟩

/-- The exact clean model output of the specification's idempotence property. -/
def cleanEmailText : String :=
  "\x7b\"subject\":\"S\",\"preheader\":\"P\",\"htmlBody\":\"<html></html>\"\x7d"

/-- Claim C8: on the already-clean object text, fence stripping and brace
slicing leave the text unchanged, and the extracted slice parses to exactly
the object the text denotes. -/
theorem extraction_idempotent_on_clean :
    cleanupContent cleanEmailText.data = cleanEmailText.data ∧
    extractJsonSlice cleanEmailText.data = .ok cleanEmailText.data ∧
    jsonParse cleanEmailText.data =
      some (Json.obj [("subject", Json.str "S"), ("preheader", Json.str "P"),
                      ("htmlBody", Json.str "<html></html>")]) :=
  ⟨rfl, rfl, rfl⟩

/-- A truthy property is present, truthy, and not the empty string. -/
theorem propTruthy_exists (j : Json) (k : String) (h : propTruthy j k = true) :
    ∃ v, getProp j k = some v ∧ jsonTruthy v = true ∧ v ≠ Json.str "" := by
  unfold propTruthy at h
  cases hg : getProp j k with
  | none => rw [hg] at h; cases h
  | some v =>
    rw [hg] at h
    refine ⟨v, rfl, h, ?_⟩
    intro hveq
    subst hveq
    simp [jsonTruthy] at h

/-- A successfully generated email has passed field validation: its three
required properties are all truthy. -/
theorem generateEmailWithAI_ok_truthy
    (sector employeeCount jobTitle : Option String) (language baseDataId : String)
    (openaiResult : Except Unit String) (aiEmail : Json) (req : Option OpenAiRequest)
    (h : generateEmailWithAI sector employeeCount jobTitle language baseDataId
        openaiResult = (.ok aiEmail, req)) :
    propTruthy aiEmail "subject" = true ∧ propTruthy aiEmail "preheader" = true ∧
      propTruthy aiEmail "htmlBody" = true := by
  cases hb : BASE_DATA baseDataId with
  | none => simp [generateEmailWithAI, hb] at h
  | some base =>
    cases openaiResult with
    | error u => simp [generateEmailWithAI, hb] at h
    | ok content =>
      cases hx : extractAndParse jsonParse content.data with
      | error e => simp [generateEmailWithAI, hb, hx] at h
      | ok parsed =>
        simp only [generateEmailWithAI, hb, hx, Prod.mk.injEq] at h
        have hv : validateEmailFields parsed = .ok aiEmail := h.1
        unfold validateEmailFields at hv
        by_cases hc : (!propTruthy parsed "subject" || !propTruthy parsed "preheader"
            || !propTruthy parsed "htmlBody") = true
        · rw [if_pos hc] at hv
          exact absurd hv (by simp)
        · rw [if_neg hc] at hv
          obtain rfl : parsed = aiEmail := by simpa using hv
          have hc' := hc
          simp only [Bool.or_eq_true, not_or, Bool.not_eq_true', Bool.not_eq_false] at hc'
          exact ⟨hc'.1.1, hc'.1.2, hc'.2⟩

/-- The webhook handler of an authorized request, with its control flow laid
out flat. -/
theorem handleAiEmailWebhook_eq (body : WebhookRequestBody)
    (openaiResult : Except Unit String) (tokenResult : Except String String)
    (updateResp : LeadUpdateResponse) :
    handleAiEmailWebhook true body openaiResult tokenResult updateResp =
      if !optTruthy body.marketoLeadId then
        { response := .missingLeadId, openaiRequest := none,
          marketoCalled := false, marketoFields := none }
      else
        match generateEmailWithAI body.sector body.employeeCount body.jobTitle
            (body.language.getD "nl") (body.baseDataId.getD "VC_BASE_V1")
            openaiResult with
        | (.error e, req) =>
          { response := .serverError (.gen e), openaiRequest := req,
            marketoCalled := false, marketoFields := none }
        | (.ok aiEmail, req) =>
          match updateMarketoLead tokenResult (body.marketoLeadId.getD Json.null)
              (fieldsToUpdate aiEmail (body.language.getD "nl")) updateResp with
          | .error e =>
            { response := .serverError (.update e), openaiRequest := req,
              marketoCalled := true,
              marketoFields := some (fieldsToUpdate aiEmail (body.language.getD "nl")) }
          | .ok mkto =>
            { response := .success aiEmail mkto, openaiRequest := req,
              marketoCalled := true,
              marketoFields := some (fieldsToUpdate aiEmail (body.language.getD "nl")) } :=
  rfl

/-- Claim C7: for an authorized webhook request, a missing lead identifier
yields the client error without any upstream call; the Marketo updater is
only ever invoked with the fields of a successfully generated email, whose
three sub-fields are present, truthy and non-empty; the success envelope with
the generated email and upstream body is returned exactly when the whole
chain succeeded; and a failed generation performs no lead update. -/
theorem handler_all_or_nothing (body : WebhookRequestBody)
    (openaiResult : Except Unit String) (tokenResult : Except String String)
    (updateResp : LeadUpdateResponse) :
    (optTruthy body.marketoLeadId = false →
      handleAiEmailWebhook true body openaiResult tokenResult updateResp =
        { response := .missingLeadId, openaiRequest := none,
          marketoCalled := false, marketoFields := none }) ∧
    ((handleAiEmailWebhook true body openaiResult tokenResult
        updateResp).marketoCalled = true →
      ∃ aiEmail req,
        generateEmailWithAI body.sector body.employeeCount body.jobTitle
            (body.language.getD "nl") (body.baseDataId.getD "VC_BASE_V1")
            openaiResult = (.ok aiEmail, req) ∧
        (handleAiEmailWebhook true body openaiResult tokenResult
            updateResp).marketoFields
          = some (fieldsToUpdate aiEmail (body.language.getD "nl")) ∧
        (∃ v, getProp aiEmail "subject" = some v ∧ jsonTruthy v = true ∧
          v ≠ Json.str "") ∧
        (∃ v, getProp aiEmail "preheader" = some v ∧ jsonTruthy v = true ∧
          v ≠ Json.str "") ∧
        (∃ v, getProp aiEmail "htmlBody" = some v ∧ jsonTruthy v = true ∧
          v ≠ Json.str "")) ∧
    (∀ a m,
      (handleAiEmailWebhook true body openaiResult tokenResult
          updateResp).response = .success a m ↔
        (optTruthy body.marketoLeadId = true ∧
         (generateEmailWithAI body.sector body.employeeCount body.jobTitle
            (body.language.getD "nl") (body.baseDataId.getD "VC_BASE_V1")
            openaiResult).1 = .ok a ∧
         updateMarketoLead tokenResult (body.marketoLeadId.getD Json.null)
            (fieldsToUpdate a (body.language.getD "nl")) updateResp = .ok m)) ∧
    (∀ e,
      (generateEmailWithAI body.sector body.employeeCount body.jobTitle
          (body.language.getD "nl") (body.baseDataId.getD "VC_BASE_V1")
          openaiResult).1 = .error e →
      (handleAiEmailWebhook true body openaiResult tokenResult
          updateResp).marketoCalled = false) := by
  by_cases hlead : optTruthy body.marketoLeadId = true
  · refine ⟨?_, ?_, ?_, ?_⟩
    · intro h
      rw [hlead] at h
      cases h
    · intro hm
      rcases hgen : generateEmailWithAI body.sector body.employeeCount body.jobTitle
          (body.language.getD "nl") (body.baseDataId.getD "VC_BASE_V1")
          openaiResult with ⟨res, req⟩
      cases res with
      | error e => simp [handleAiEmailWebhook_eq, hlead, hgen] at hm
      | ok aiEmail =>
        obtain ⟨hs, hp, hb⟩ := generateEmailWithAI_ok_truthy _ _ _ _ _ _ _ _ hgen
        refine ⟨aiEmail, req, rfl, ?_, propTruthy_exists _ _ hs,
          propTruthy_exists _ _ hp, propTruthy_exists _ _ hb⟩
        cases hupd : updateMarketoLead tokenResult (body.marketoLeadId.getD Json.null)
            (fieldsToUpdate aiEmail (body.language.getD "nl")) updateResp with
        | error ue => simp [handleAiEmailWebhook_eq, hlead, hgen, hupd]
        | ok mkto => simp [handleAiEmailWebhook_eq, hlead, hgen, hupd]
    · intro a m
      rcases hgen : generateEmailWithAI body.sector body.employeeCount body.jobTitle
          (body.language.getD "nl") (body.baseDataId.getD "VC_BASE_V1")
          openaiResult with ⟨res, req⟩
      cases res with
      | error e =>
        simp only [handleAiEmailWebhook_eq, hlead, Bool.not_true, Bool.false_eq_true,
          if_false, hgen]
        constructor
        · intro h
          cases h
        · rintro ⟨-, hok, -⟩
          cases hok
      | ok aiEmail =>
        cases hupd : updateMarketoLead tokenResult (body.marketoLeadId.getD Json.null)
            (fieldsToUpdate aiEmail (body.language.getD "nl")) updateResp with
        | error ue =>
          simp only [handleAiEmailWebhook_eq, hlead, Bool.not_true, Bool.false_eq_true,
            if_false, hgen, hupd]
          constructor
          · intro h
            cases h
          · rintro ⟨-, hok, hupdok⟩
            obtain rfl : aiEmail = a := by simpa using hok
            rw [hupd] at hupdok
            cases hupdok
        | ok mkto =>
          simp only [handleAiEmailWebhook_eq, hlead, Bool.not_true, Bool.false_eq_true,
            if_false, hgen, hupd]
          constructor
          · intro h
            rcases h with ⟨rfl, rfl⟩
            exact ⟨trivial, by simp, hupd⟩
          · rintro ⟨-, hok, hupdok⟩
            obtain rfl : aiEmail = a := by simpa using hok
            rw [hupd] at hupdok
            obtain rfl : mkto = m := by simpa using hupdok
            rfl
    · intro e hgen1
      rcases hgen : generateEmailWithAI body.sector body.employeeCount body.jobTitle
          (body.language.getD "nl") (body.baseDataId.getD "VC_BASE_V1")
          openaiResult with ⟨res, req⟩
      cases res with
      | error e0 => simp [handleAiEmailWebhook_eq, hlead, hgen]
      | ok aiEmail =>
        rw [hgen] at hgen1
        cases hgen1
  · have hlead' : optTruthy body.marketoLeadId = false := by
      simpa using hlead
    refine ⟨?_, ?_, ?_, ?_⟩
    · intro _
      simp [handleAiEmailWebhook_eq, hlead']
    · intro hm
      simp [handleAiEmailWebhook_eq, hlead'] at hm
    · intro a m
      simp only [handleAiEmailWebhook_eq, hlead', Bool.not_false, if_true]
      constructor
      · intro h
        cases h
      · rintro ⟨hl, -, -⟩
        simp at hl
    · intro e _
      simp [handleAiEmailWebhook_eq, hlead']

/-- Witness for C7: an authorized request whose body has no `marketoLeadId`
(all properties absent) is answered with the missing-lead-id client error and
neither upstream service is called. -/
theorem handler_all_or_nothing_witness :
    handleAiEmailWebhook true
      ⟨none, none, none, none, none, none, none⟩ (.error ()) (.error "e")
      ⟨true, .error ()⟩ =
      { response := .missingLeadId, openaiRequest := none,
        marketoCalled := false, marketoFields := none } :=
  (handler_all_or_nothing ⟨none, none, none, none, none, none, none⟩
    (.error ()) (.error "e") ⟨true, .error ()⟩).1 rfl

/-- Claim C10: when the request body carries `language` present as the empty
string, the handler's `"nl"` destructuring default is not applied (it fires
only on an absent property); the system prompt built for `""` is the English
variant, which differs from the Dutch prompt built for `"nl"`; the user
prompt nevertheless substitutes `"nl"` via `language || 'nl'`, so the two
prompts disagree about the target language; and the lead field
`AI_Email_Language__c` sent to the updater is the empty string. -/
theorem empty_language_handling (body : WebhookRequestBody)
    (hlang : body.language = some "")
    (sector employeeCount jobTitle : Option String) (base : BaseContent)
    (aiEmail : Json) :
    body.language.getD "nl" = "" ∧
    buildSystemPrompt "" = englishSystemPrompt ∧
    buildSystemPrompt "" ≠ buildSystemPrompt "nl" ∧
    buildUserPrompt sector employeeCount jobTitle "" base
      = buildUserPrompt sector employeeCount jobTitle "nl" base ∧
    List.lookup "AI_Email_Language__c" (fieldsToUpdate aiEmail "")
      = some (Json.str "") ∧
    (∀ (openaiResult : Except Unit String) (tokenResult : Except String String)
        (updateResp : LeadUpdateResponse) (fs : List (String × Json)),
      (handleAiEmailWebhook true body openaiResult tokenResult
          updateResp).marketoFields = some fs →
      List.lookup "AI_Email_Language__c" fs = some (Json.str "")) := by
  refine ⟨by rw [hlang]; rfl, rfl, by decide, ?_, rfl, ?_⟩
  · simp [buildUserPrompt, jsOrStr]
  · intro openaiResult tokenResult updateResp fs hfs
    by_cases hlead : optTruthy body.marketoLeadId = true
    · rcases hgen : generateEmailWithAI body.sector body.employeeCount body.jobTitle
          (body.language.getD "nl") (body.baseDataId.getD "VC_BASE_V1")
          openaiResult with ⟨res, req⟩
      cases res with
      | error e => simp [handleAiEmailWebhook_eq, hlead, hgen] at hfs
      | ok aiEmail' =>
        cases hupd : updateMarketoLead tokenResult (body.marketoLeadId.getD Json.null)
            (fieldsToUpdate aiEmail' (body.language.getD "nl")) updateResp with
        | error ue =>
          simp only [handleAiEmailWebhook_eq, hlead, Bool.not_true,
            Bool.false_eq_true, if_false, hgen, hupd, Option.some.injEq] at hfs
          subst hfs
          rw [hlang]
          rfl
        | ok mkto =>
          simp only [handleAiEmailWebhook_eq, hlead, Bool.not_true,
            Bool.false_eq_true, if_false, hgen, hupd, Option.some.injEq] at hfs
          subst hfs
          rw [hlang]
          rfl
    · have hlead' : optTruthy body.marketoLeadId = false := by
        simpa using hlead
      simp [handleAiEmailWebhook_eq, hlead'] at hfs

/-- Witness for C10: for the body `{marketoLeadId: "42", language: ""}`, the
effective language is the empty string and the two system-prompt variants
indeed differ. -/
theorem empty_language_handling_witness :
    (⟨none, some (Json.str "42"), none, none, none, some "", none⟩ :
        WebhookRequestBody).language.getD "nl" = "" ∧
    buildSystemPrompt "" ≠ buildSystemPrompt "nl" :=
  have h := empty_language_handling
    ⟨none, some (Json.str "42"), none, none, none, some "", none⟩ rfl
    none none none ⟨"Voice Cloud", [], "Plan een gratis demo",
      "https://www2.telenet.be/business/nl/voice-cloud/demo"⟩ Json.null
  ⟨h.1, h.2.2.1⟩

end AiMarketo
